import Mathlib

/-!
Shallow embedding of the keyboard-to-setpoint controller of
`LunarSimulator/PythonAPI/examples/manual_control.py` (class `KeyboardControl`).
Python floats are modelled as exact rationals.
-/

/-- Step constant: `self._linear_speed_increase = 0.01`. -/
def linear_speed_increase : ℚ := 1/100

/-- Step constant: `self._angular_speed_increase = 0.01`. -/
def angular_speed_increase : ℚ := 1/100

/-- Step constant: `self._drum_speed_increase = 0.017`. -/
def drum_speed_increase : ℚ := 17/1000

/-- Step constant: `self._arm_angle_increase = 0.017`. -/
def arm_angle_increase : ℚ := 17/1000

/-- Clamp constant: `self._max_linear_speed = 0.5`. -/
def max_linear_speed : ℚ := 1/2

/-- Clamp constant: `self._max_angular_speed = 0.5`. -/
def max_angular_speed : ℚ := 1/2

/-- Clamp constant: `self._max_arm_angle = 2.36`. -/
def max_arm_angle : ℚ := 236/100

/-- Clamp constant: `self._max_drum_speed = 0.17`. -/
def max_drum_speed : ℚ := 17/100

/-- Light-toggle step constant: `self._lights_increase = 10`. -/
def lights_increase : ℚ := 10

/-- The six per-channel setpoints held by `KeyboardControl`. -/
structure KeyboardControl where
  linear_target_speed : ℚ
  angular_target_speed : ℚ
  front_drum_target_speed : ℚ
  front_arm_target_angle : ℚ
  back_arm_target_angle : ℚ
  back_drum_target_speed : ℚ
deriving DecidableEq

/-- The initial setpoints assigned in `KeyboardControl.__init__`. -/
def initControl : KeyboardControl :=
  { linear_target_speed := 0
    angular_target_speed := 0
    front_drum_target_speed := 0
    front_arm_target_angle := 79/100
    back_arm_target_angle := 79/100
    back_drum_target_speed := 0 }

/-- The held state, for one frame, of each key `parse_events` reads via
`pygame.key.get_pressed()`. -/
structure Keys where
  k_up : Bool := false
  k_w : Bool := false
  k_down : Bool := false
  k_s : Bool := false
  k_left : Bool := false
  k_a : Bool := false
  k_right : Bool := false
  k_d : Bool := false
  k_f : Bool := false
  k_v : Bool := false
  k_g : Bool := false
  k_b : Bool := false
  k_h : Bool := false
  k_n : Bool := false
  k_j : Bool := false
  k_m : Bool := false
deriving DecidableEq

/-- An actuator command sent to the simulator API during `parse_events`. -/
inductive Command where
  | apply_velocity_control (lin ang : ℚ)
  | set_front_drums_target_speed (q : ℚ)
  | set_front_arm_angle (q : ℚ)
  | set_back_arm_angle (q : ℚ)
  | set_back_drums_target_speed (q : ℚ)
deriving DecidableEq

/-- Linear-speed block of `parse_events` (lines 355-360). -/
def rampLinear (keys : Keys) (st : KeyboardControl) : KeyboardControl :=
  if keys.k_up || keys.k_w then
    { st with linear_target_speed := min (st.linear_target_speed + linear_speed_increase) max_linear_speed }
  else if keys.k_down || keys.k_s then
    { st with linear_target_speed := max (st.linear_target_speed - linear_speed_increase) (-max_linear_speed) }
  else
    { st with linear_target_speed := max (st.linear_target_speed - 2 * linear_speed_increase) 0 }

/-- Angular-speed block of `parse_events` (lines 362-367): the LEFT branch,
which decreases the value, is checked first. -/
def rampAngular (keys : Keys) (st : KeyboardControl) : KeyboardControl :=
  if keys.k_left || keys.k_a then
    { st with angular_target_speed := max (st.angular_target_speed - angular_speed_increase) (-max_angular_speed) }
  else if keys.k_right || keys.k_d then
    { st with angular_target_speed := min (st.angular_target_speed + angular_speed_increase) max_angular_speed }
  else
    { st with angular_target_speed := max (st.angular_target_speed - 2 * angular_speed_increase) 0 }

/-- Front-drum block of `parse_events` (lines 371-376); returns the new state
and the commands emitted by that block. -/
def rampFrontDrum (keys : Keys) (st : KeyboardControl) : KeyboardControl × List Command :=
  if keys.k_f then
    let st := { st with front_drum_target_speed := min (st.front_drum_target_speed + drum_speed_increase) max_drum_speed }
    (st, [Command.set_front_drums_target_speed st.front_drum_target_speed])
  else if keys.k_v then
    let st := { st with front_drum_target_speed := max (st.front_drum_target_speed - drum_speed_increase) (-max_drum_speed) }
    (st, [Command.set_front_drums_target_speed st.front_drum_target_speed])
  else (st, [])

/-- Front-arm block of `parse_events` (lines 377-382). -/
def rampFrontArm (keys : Keys) (st : KeyboardControl) : KeyboardControl × List Command :=
  if keys.k_g then
    let st := { st with front_arm_target_angle := min (st.front_arm_target_angle + arm_angle_increase) max_arm_angle }
    (st, [Command.set_front_arm_angle st.front_arm_target_angle])
  else if keys.k_b then
    let st := { st with front_arm_target_angle := max (st.front_arm_target_angle - arm_angle_increase) (-max_arm_angle) }
    (st, [Command.set_front_arm_angle st.front_arm_target_angle])
  else (st, [])

/-- Back-arm block of `parse_events` (lines 383-388). -/
def rampBackArm (keys : Keys) (st : KeyboardControl) : KeyboardControl × List Command :=
  if keys.k_h then
    let st := { st with back_arm_target_angle := min (st.back_arm_target_angle + arm_angle_increase) max_arm_angle }
    (st, [Command.set_back_arm_angle st.back_arm_target_angle])
  else if keys.k_n then
    let st := { st with back_arm_target_angle := max (st.back_arm_target_angle - arm_angle_increase) (-max_arm_angle) }
    (st, [Command.set_back_arm_angle st.back_arm_target_angle])
  else (st, [])

/-- Back-drum block of `parse_events` (lines 389-394). -/
def rampBackDrum (keys : Keys) (st : KeyboardControl) : KeyboardControl × List Command :=
  if keys.k_j then
    let st := { st with back_drum_target_speed := min (st.back_drum_target_speed + drum_speed_increase) max_drum_speed }
    (st, [Command.set_back_drums_target_speed st.back_drum_target_speed])
  else if keys.k_m then
    let st := { st with back_drum_target_speed := max (st.back_drum_target_speed - drum_speed_increase) (-max_drum_speed) }
    (st, [Command.set_back_drums_target_speed st.back_drum_target_speed])
  else (st, [])

/-- The per-frame ramping part of `KeyboardControl.parse_events` (lines
353-394): update linear and angular speed, emit
`world.player.apply_velocity_control(...)` unconditionally, then run the four
drum/arm blocks, each emitting its setter command only inside its branches.
Returns the new state and the emitted commands in order. -/
def parse_events (keys : Keys) (st : KeyboardControl) : KeyboardControl × List Command :=
  let st := rampLinear keys st
  let st := rampAngular keys st
  let cmds := [Command.apply_velocity_control st.linear_target_speed st.angular_target_speed]
  let p1 := rampFrontDrum keys st
  let p2 := rampFrontArm keys p1.1
  let p3 := rampBackArm keys p2.1
  let p4 := rampBackDrum keys p3.1
  (p4.1, cmds ++ p1.2 ++ p2.2 ++ p3.2 ++ p4.2)

/-- Iterate `parse_events` over a finite sequence of per-frame key states. -/
def run_frames (ks : List Keys) (st : KeyboardControl) : KeyboardControl :=
  match ks with
  | [] => st
  | k :: rest => run_frames rest (parse_events k st).1

/-- Each of the six channel values lies within its clamp bounds. -/
def inBounds (st : KeyboardControl) : Prop :=
  -max_linear_speed ≤ st.linear_target_speed ∧ st.linear_target_speed ≤ max_linear_speed ∧
  -max_angular_speed ≤ st.angular_target_speed ∧ st.angular_target_speed ≤ max_angular_speed ∧
  -max_drum_speed ≤ st.front_drum_target_speed ∧ st.front_drum_target_speed ≤ max_drum_speed ∧
  -max_arm_angle ≤ st.front_arm_target_angle ∧ st.front_arm_target_angle ≤ max_arm_angle ∧
  -max_arm_angle ≤ st.back_arm_target_angle ∧ st.back_arm_target_angle ≤ max_arm_angle ∧
  -max_drum_speed ≤ st.back_drum_target_speed ∧ st.back_drum_target_speed ≤ max_drum_speed

/-- The eight sensor positions carrying a controllable light. -/
inductive SensorPosition where
  | Front | FrontLeft | FrontRight | Left | Right | BackLeft | BackRight | Back
deriving DecidableEq

/-- The initial `lights_value` mapping of `KeyboardControl.__init__`: every
position at 0.0. -/
def init_lights : SensorPosition → ℚ := fun _ => 0

/-- One light-toggle event (lines 344-350 of `parse_events`): a shift-modified
event subtracts `lights_increase`, an unmodified one adds it, the result is
clamped by `max(min(v, 100.0), 0.0)`, and only the toggled position's entry is
replaced. -/
def toggle_light (shift : Bool) (sensor : SensorPosition)
    (lights : SensorPosition → ℚ) : SensorPosition → ℚ :=
  let light_value :=
    if shift then max (min (lights sensor - lights_increase) 100) 0
    else max (min (lights sensor + lights_increase) 100) 0
  fun p => if p = sensor then light_value else lights p

/-- Fold a finite sequence of toggle events (modifier flag and position) over a
lights mapping. -/
def run_toggles (evs : List (Bool × SensorPosition))
    (lights : SensorPosition → ℚ) : SensorPosition → ℚ :=
  match evs with
  | [] => lights
  | (shift, sensor) :: rest => run_toggles rest (toggle_light shift sensor lights)

/-- A frame with no relevant key held. -/
def noKeys : Keys := {}

/-- A frame holding only the UP key (linear positive direction). -/
def keysUpOnly : Keys := { k_up := true }

/-- A frame holding only the RIGHT key (angular positive direction). -/
def keysRightOnly : Keys := { k_right := true }

/-- A frame holding only the LEFT key (angular negative direction). -/
def keysLeftOnly : Keys := { k_left := true }

/-- A frame holding LEFT and RIGHT simultaneously. -/
def keysLeftRight : Keys := { k_left := true, k_right := true }

/-- A frame holding only the F key (front drum positive direction). -/
def keysFOnly : Keys := { k_f := true }

/-- A frame holding only the G key (front arm positive direction). -/
def keysGOnly : Keys := { k_g := true }

/-- A frame holding only the H key (back arm positive direction). -/
def keysHOnly : Keys := { k_h := true }

/-- A frame holding only the J key (back drum positive direction). -/
def keysJOnly : Keys := { k_j := true }

/-- A frame holding every directional key at once. -/
def allKeys : Keys :=
  { k_up := true, k_w := true, k_down := true, k_s := true,
    k_left := true, k_a := true, k_right := true, k_d := true,
    k_f := true, k_v := true, k_g := true, k_b := true,
    k_h := true, k_n := true, k_j := true, k_m := true }

lemma rampLinear_others (k : Keys) (st : KeyboardControl) :
    (rampLinear k st).angular_target_speed = st.angular_target_speed ∧
    (rampLinear k st).front_drum_target_speed = st.front_drum_target_speed ∧
    (rampLinear k st).front_arm_target_angle = st.front_arm_target_angle ∧
    (rampLinear k st).back_arm_target_angle = st.back_arm_target_angle ∧
    (rampLinear k st).back_drum_target_speed = st.back_drum_target_speed := by
  unfold rampLinear
  split_ifs <;> exact ⟨rfl, rfl, rfl, rfl, rfl⟩

lemma rampAngular_others (k : Keys) (st : KeyboardControl) :
    (rampAngular k st).linear_target_speed = st.linear_target_speed ∧
    (rampAngular k st).front_drum_target_speed = st.front_drum_target_speed ∧
    (rampAngular k st).front_arm_target_angle = st.front_arm_target_angle ∧
    (rampAngular k st).back_arm_target_angle = st.back_arm_target_angle ∧
    (rampAngular k st).back_drum_target_speed = st.back_drum_target_speed := by
  unfold rampAngular
  split_ifs <;> exact ⟨rfl, rfl, rfl, rfl, rfl⟩

lemma rampFrontDrum_others (k : Keys) (st : KeyboardControl) :
    (rampFrontDrum k st).1.linear_target_speed = st.linear_target_speed ∧
    (rampFrontDrum k st).1.angular_target_speed = st.angular_target_speed ∧
    (rampFrontDrum k st).1.front_arm_target_angle = st.front_arm_target_angle ∧
    (rampFrontDrum k st).1.back_arm_target_angle = st.back_arm_target_angle ∧
    (rampFrontDrum k st).1.back_drum_target_speed = st.back_drum_target_speed := by
  unfold rampFrontDrum
  split_ifs <;> exact ⟨rfl, rfl, rfl, rfl, rfl⟩

lemma rampFrontArm_others (k : Keys) (st : KeyboardControl) :
    (rampFrontArm k st).1.linear_target_speed = st.linear_target_speed ∧
    (rampFrontArm k st).1.angular_target_speed = st.angular_target_speed ∧
    (rampFrontArm k st).1.front_drum_target_speed = st.front_drum_target_speed ∧
    (rampFrontArm k st).1.back_arm_target_angle = st.back_arm_target_angle ∧
    (rampFrontArm k st).1.back_drum_target_speed = st.back_drum_target_speed := by
  unfold rampFrontArm
  split_ifs <;> exact ⟨rfl, rfl, rfl, rfl, rfl⟩

lemma rampBackArm_others (k : Keys) (st : KeyboardControl) :
    (rampBackArm k st).1.linear_target_speed = st.linear_target_speed ∧
    (rampBackArm k st).1.angular_target_speed = st.angular_target_speed ∧
    (rampBackArm k st).1.front_drum_target_speed = st.front_drum_target_speed ∧
    (rampBackArm k st).1.front_arm_target_angle = st.front_arm_target_angle ∧
    (rampBackArm k st).1.back_drum_target_speed = st.back_drum_target_speed := by
  unfold rampBackArm
  split_ifs <;> exact ⟨rfl, rfl, rfl, rfl, rfl⟩

lemma rampBackDrum_others (k : Keys) (st : KeyboardControl) :
    (rampBackDrum k st).1.linear_target_speed = st.linear_target_speed ∧
    (rampBackDrum k st).1.angular_target_speed = st.angular_target_speed ∧
    (rampBackDrum k st).1.front_drum_target_speed = st.front_drum_target_speed ∧
    (rampBackDrum k st).1.front_arm_target_angle = st.front_arm_target_angle ∧
    (rampBackDrum k st).1.back_arm_target_angle = st.back_arm_target_angle := by
  unfold rampBackDrum
  split_ifs <;> exact ⟨rfl, rfl, rfl, rfl, rfl⟩

lemma parse_events_linear_eq (k : Keys) (st : KeyboardControl) :
    (parse_events k st).1.linear_target_speed =
      if k.k_up || k.k_w then min (st.linear_target_speed + linear_speed_increase) max_linear_speed
      else if k.k_down || k.k_s then max (st.linear_target_speed - linear_speed_increase) (-max_linear_speed)
      else max (st.linear_target_speed - 2 * linear_speed_increase) 0 := by
  show (rampBackDrum k (rampBackArm k (rampFrontArm k (rampFrontDrum k
      (rampAngular k (rampLinear k st))).1).1).1).1.linear_target_speed = _
  rw [(rampBackDrum_others _ _).1, (rampBackArm_others _ _).1, (rampFrontArm_others _ _).1,
    (rampFrontDrum_others _ _).1, (rampAngular_others _ _).1]
  unfold rampLinear
  split_ifs <;> rfl

lemma parse_events_angular_eq (k : Keys) (st : KeyboardControl) :
    (parse_events k st).1.angular_target_speed =
      if k.k_left || k.k_a then max (st.angular_target_speed - angular_speed_increase) (-max_angular_speed)
      else if k.k_right || k.k_d then min (st.angular_target_speed + angular_speed_increase) max_angular_speed
      else max (st.angular_target_speed - 2 * angular_speed_increase) 0 := by
  show (rampBackDrum k (rampBackArm k (rampFrontArm k (rampFrontDrum k
      (rampAngular k (rampLinear k st))).1).1).1).1.angular_target_speed = _
  rw [(rampBackDrum_others _ _).2.1, (rampBackArm_others _ _).2.1, (rampFrontArm_others _ _).2.1,
    (rampFrontDrum_others _ _).2.1]
  rw [show (rampAngular k (rampLinear k st)).angular_target_speed =
      if k.k_left || k.k_a then max ((rampLinear k st).angular_target_speed - angular_speed_increase) (-max_angular_speed)
      else if k.k_right || k.k_d then min ((rampLinear k st).angular_target_speed + angular_speed_increase) max_angular_speed
      else max ((rampLinear k st).angular_target_speed - 2 * angular_speed_increase) 0 by
    unfold rampAngular
    split_ifs <;> rfl]
  rw [(rampLinear_others _ _).1]

lemma parse_events_front_drum_eq (k : Keys) (st : KeyboardControl) :
    (parse_events k st).1.front_drum_target_speed =
      if k.k_f then min (st.front_drum_target_speed + drum_speed_increase) max_drum_speed
      else if k.k_v then max (st.front_drum_target_speed - drum_speed_increase) (-max_drum_speed)
      else st.front_drum_target_speed := by
  show (rampBackDrum k (rampBackArm k (rampFrontArm k (rampFrontDrum k
      (rampAngular k (rampLinear k st))).1).1).1).1.front_drum_target_speed = _
  rw [(rampBackDrum_others _ _).2.2.1, (rampBackArm_others _ _).2.2.1, (rampFrontArm_others _ _).2.2.1]
  rw [show (rampFrontDrum k (rampAngular k (rampLinear k st))).1.front_drum_target_speed =
      if k.k_f then min ((rampAngular k (rampLinear k st)).front_drum_target_speed + drum_speed_increase) max_drum_speed
      else if k.k_v then max ((rampAngular k (rampLinear k st)).front_drum_target_speed - drum_speed_increase) (-max_drum_speed)
      else (rampAngular k (rampLinear k st)).front_drum_target_speed by
    unfold rampFrontDrum
    split_ifs <;> rfl]
  rw [(rampAngular_others _ _).2.1, (rampLinear_others _ _).2.1]

lemma parse_events_front_arm_eq (k : Keys) (st : KeyboardControl) :
    (parse_events k st).1.front_arm_target_angle =
      if k.k_g then min (st.front_arm_target_angle + arm_angle_increase) max_arm_angle
      else if k.k_b then max (st.front_arm_target_angle - arm_angle_increase) (-max_arm_angle)
      else st.front_arm_target_angle := by
  show (rampBackDrum k (rampBackArm k (rampFrontArm k (rampFrontDrum k
      (rampAngular k (rampLinear k st))).1).1).1).1.front_arm_target_angle = _
  rw [(rampBackDrum_others _ _).2.2.2.1, (rampBackArm_others _ _).2.2.2.1]
  rw [show ∀ s2 : KeyboardControl, (rampFrontArm k s2).1.front_arm_target_angle =
      if k.k_g then min (s2.front_arm_target_angle + arm_angle_increase) max_arm_angle
      else if k.k_b then max (s2.front_arm_target_angle - arm_angle_increase) (-max_arm_angle)
      else s2.front_arm_target_angle from fun s2 => by
    unfold rampFrontArm
    split_ifs <;> rfl]
  rw [(rampFrontDrum_others _ _).2.2.1, (rampAngular_others _ _).2.2.1, (rampLinear_others _ _).2.2.1]

lemma parse_events_back_arm_eq (k : Keys) (st : KeyboardControl) :
    (parse_events k st).1.back_arm_target_angle =
      if k.k_h then min (st.back_arm_target_angle + arm_angle_increase) max_arm_angle
      else if k.k_n then max (st.back_arm_target_angle - arm_angle_increase) (-max_arm_angle)
      else st.back_arm_target_angle := by
  show (rampBackDrum k (rampBackArm k (rampFrontArm k (rampFrontDrum k
      (rampAngular k (rampLinear k st))).1).1).1).1.back_arm_target_angle = _
  rw [(rampBackDrum_others _ _).2.2.2.2]
  rw [show ∀ s2 : KeyboardControl, (rampBackArm k s2).1.back_arm_target_angle =
      if k.k_h then min (s2.back_arm_target_angle + arm_angle_increase) max_arm_angle
      else if k.k_n then max (s2.back_arm_target_angle - arm_angle_increase) (-max_arm_angle)
      else s2.back_arm_target_angle from fun s2 => by
    unfold rampBackArm
    split_ifs <;> rfl]
  rw [(rampFrontArm_others _ _).2.2.2.1, (rampFrontDrum_others _ _).2.2.2.1,
    (rampAngular_others _ _).2.2.2.1, (rampLinear_others _ _).2.2.2.1]

lemma parse_events_back_drum_eq (k : Keys) (st : KeyboardControl) :
    (parse_events k st).1.back_drum_target_speed =
      if k.k_j then min (st.back_drum_target_speed + drum_speed_increase) max_drum_speed
      else if k.k_m then max (st.back_drum_target_speed - drum_speed_increase) (-max_drum_speed)
      else st.back_drum_target_speed := by
  show (rampBackDrum k (rampBackArm k (rampFrontArm k (rampFrontDrum k
      (rampAngular k (rampLinear k st))).1).1).1).1.back_drum_target_speed = _
  rw [show ∀ s2 : KeyboardControl, (rampBackDrum k s2).1.back_drum_target_speed =
      if k.k_j then min (s2.back_drum_target_speed + drum_speed_increase) max_drum_speed
      else if k.k_m then max (s2.back_drum_target_speed - drum_speed_increase) (-max_drum_speed)
      else s2.back_drum_target_speed from fun s2 => by
    unfold rampBackDrum
    split_ifs <;> rfl]
  rw [(rampBackArm_others _ _).2.2.2.2, (rampFrontArm_others _ _).2.2.2.2,
    (rampFrontDrum_others _ _).2.2.2.2, (rampAngular_others _ _).2.2.2.2, (rampLinear_others _ _).2.2.2.2]

lemma clamp_min_bounds {x s M : ℚ} (h1 : -M ≤ x) (hs : 0 ≤ s) (hM : 0 ≤ M) :
    -M ≤ min (x + s) M ∧ min (x + s) M ≤ M :=
  ⟨le_min (by linarith) (by linarith), min_le_right _ _⟩

lemma clamp_max_bounds {x s M : ℚ} (h2 : x ≤ M) (hs : 0 ≤ s) (hM : 0 ≤ M) :
    -M ≤ max (x - s) (-M) ∧ max (x - s) (-M) ≤ M :=
  ⟨le_max_right _ _, max_le (by linarith) (by linarith)⟩

lemma clamp_decay_bounds {x s M : ℚ} (h2 : x ≤ M) (hs : 0 ≤ s) (hM : 0 ≤ M) :
    -M ≤ max (x - s) 0 ∧ max (x - s) 0 ≤ M :=
  ⟨le_trans (by linarith) (le_max_right _ _), max_le (by linarith) hM⟩

lemma parse_events_preserves_inBounds (k : Keys) (st : KeyboardControl)
    (h : inBounds st) : inBounds (parse_events k st).1 := by
  obtain ⟨h1, h2, h3, h4, h5, h6, h7, h8, h9, h10, h11, h12⟩ := h
  have hsl : (0:ℚ) ≤ linear_speed_increase := by norm_num [linear_speed_increase]
  have hsl2 : (0:ℚ) ≤ 2 * linear_speed_increase := by norm_num [linear_speed_increase]
  have hsa : (0:ℚ) ≤ angular_speed_increase := by norm_num [angular_speed_increase]
  have hsa2 : (0:ℚ) ≤ 2 * angular_speed_increase := by norm_num [angular_speed_increase]
  have hsd : (0:ℚ) ≤ drum_speed_increase := by norm_num [drum_speed_increase]
  have hsr : (0:ℚ) ≤ arm_angle_increase := by norm_num [arm_angle_increase]
  have hMl : (0:ℚ) ≤ max_linear_speed := by norm_num [max_linear_speed]
  have hMa : (0:ℚ) ≤ max_angular_speed := by norm_num [max_angular_speed]
  have hMd : (0:ℚ) ≤ max_drum_speed := by norm_num [max_drum_speed]
  have hMr : (0:ℚ) ≤ max_arm_angle := by norm_num [max_arm_angle]
  have hlin : -max_linear_speed ≤ (parse_events k st).1.linear_target_speed ∧
      (parse_events k st).1.linear_target_speed ≤ max_linear_speed := by
    rw [parse_events_linear_eq]
    split_ifs
    · exact clamp_min_bounds h1 hsl hMl
    · exact clamp_max_bounds h2 hsl hMl
    · exact clamp_decay_bounds h2 hsl2 hMl
  have hang : -max_angular_speed ≤ (parse_events k st).1.angular_target_speed ∧
      (parse_events k st).1.angular_target_speed ≤ max_angular_speed := by
    rw [parse_events_angular_eq]
    split_ifs
    · exact clamp_max_bounds h4 hsa hMa
    · exact clamp_min_bounds h3 hsa hMa
    · exact clamp_decay_bounds h4 hsa2 hMa
  have hfd : -max_drum_speed ≤ (parse_events k st).1.front_drum_target_speed ∧
      (parse_events k st).1.front_drum_target_speed ≤ max_drum_speed := by
    rw [parse_events_front_drum_eq]
    split_ifs
    · exact clamp_min_bounds h5 hsd hMd
    · exact clamp_max_bounds h6 hsd hMd
    · exact ⟨h5, h6⟩
  have hfa : -max_arm_angle ≤ (parse_events k st).1.front_arm_target_angle ∧
      (parse_events k st).1.front_arm_target_angle ≤ max_arm_angle := by
    rw [parse_events_front_arm_eq]
    split_ifs
    · exact clamp_min_bounds h7 hsr hMr
    · exact clamp_max_bounds h8 hsr hMr
    · exact ⟨h7, h8⟩
  have hba : -max_arm_angle ≤ (parse_events k st).1.back_arm_target_angle ∧
      (parse_events k st).1.back_arm_target_angle ≤ max_arm_angle := by
    rw [parse_events_back_arm_eq]
    split_ifs
    · exact clamp_min_bounds h9 hsr hMr
    · exact clamp_max_bounds h10 hsr hMr
    · exact ⟨h9, h10⟩
  have hbd : -max_drum_speed ≤ (parse_events k st).1.back_drum_target_speed ∧
      (parse_events k st).1.back_drum_target_speed ≤ max_drum_speed := by
    rw [parse_events_back_drum_eq]
    split_ifs
    · exact clamp_min_bounds h11 hsd hMd
    · exact clamp_max_bounds h12 hsd hMd
    · exact ⟨h11, h12⟩
  exact ⟨hlin.1, hlin.2, hang.1, hang.2, hfd.1, hfd.2, hfa.1, hfa.2, hba.1, hba.2, hbd.1, hbd.2⟩

lemma run_frames_preserves_inBounds (ks : List Keys) (st : KeyboardControl)
    (h : inBounds st) : inBounds (run_frames ks st) := by
  induction ks generalizing st with
  | nil => exact h
  | cons k rest ih => exact ih _ (parse_events_preserves_inBounds k st h)

lemma initControl_inBounds : inBounds initControl := by
  unfold inBounds initControl
  norm_num [max_linear_speed, max_angular_speed, max_drum_speed, max_arm_angle]

/-- Claim C1: starting from the controller's initial state, after every frame of
`parse_events` ramping each of the six channel values (linear speed, angular
speed, front/back drum speed, front/back arm angle) lies within that channel's
inclusive clamp bounds. -/
theorem all_frames_in_bounds (ks : List Keys) : inBounds (run_frames ks initControl) :=
  run_frames_preserves_inBounds ks initControl initControl_inBounds

/-- Claim C2 counterexample: with LEFT and RIGHT held simultaneously from the
initial state, the angular-speed channel takes the decrease branch, yielding
-0.01, which differs from the value the positive/increase branch would give
(0.01): the tie does not resolve to the positive branch on this channel. -/
theorem angular_tie_break_cex :
    (parse_events keysLeftRight initControl).1.angular_target_speed = -1/100 ∧
    min (initControl.angular_target_speed + angular_speed_increase) max_angular_speed = 1/100 ∧
    (parse_events keysLeftRight initControl).1.angular_target_speed ≠
      min (initControl.angular_target_speed + angular_speed_increase) max_angular_speed := by
  rw [parse_events_angular_eq]
  norm_num [keysLeftRight, initControl, angular_speed_increase, max_angular_speed, min_def, max_def]

/-- Claim C2 amended: when both directional keys of a channel are held
simultaneously, the branch checked first takes precedence: the
positive/increase branch for linear speed and the four drum/arm channels, but
the decrease (LEFT) branch for the angular-speed channel. -/
theorem tie_break_first_branch (k : Keys) (st : KeyboardControl) :
    (k.k_up = true → k.k_down = true →
      (parse_events k st).1.linear_target_speed = min (st.linear_target_speed + linear_speed_increase) max_linear_speed) ∧
    (k.k_left = true → k.k_right = true →
      (parse_events k st).1.angular_target_speed = max (st.angular_target_speed - angular_speed_increase) (-max_angular_speed)) ∧
    (k.k_f = true → k.k_v = true →
      (parse_events k st).1.front_drum_target_speed = min (st.front_drum_target_speed + drum_speed_increase) max_drum_speed) ∧
    (k.k_g = true → k.k_b = true →
      (parse_events k st).1.front_arm_target_angle = min (st.front_arm_target_angle + arm_angle_increase) max_arm_angle) ∧
    (k.k_h = true → k.k_n = true →
      (parse_events k st).1.back_arm_target_angle = min (st.back_arm_target_angle + arm_angle_increase) max_arm_angle) ∧
    (k.k_j = true → k.k_m = true →
      (parse_events k st).1.back_drum_target_speed = min (st.back_drum_target_speed + drum_speed_increase) max_drum_speed) := by
  refine ⟨fun h _ => ?_, fun h _ => ?_, fun h _ => ?_, fun h _ => ?_, fun h _ => ?_, fun h _ => ?_⟩
  · rw [parse_events_linear_eq]
    simp [h]
  · rw [parse_events_angular_eq]
    simp [h]
  · rw [parse_events_front_drum_eq]
    simp [h]
  · rw [parse_events_front_arm_eq]
    simp [h]
  · rw [parse_events_back_arm_eq]
    simp [h]
  · rw [parse_events_back_drum_eq]
    simp [h]

/-- Witness for the amended tie-break theorem at a frame holding every key. -/
theorem tie_break_first_branch_witness :
    (parse_events allKeys initControl).1.linear_target_speed = min (initControl.linear_target_speed + linear_speed_increase) max_linear_speed ∧
    (parse_events allKeys initControl).1.angular_target_speed = max (initControl.angular_target_speed - angular_speed_increase) (-max_angular_speed) ∧
    (parse_events allKeys initControl).1.front_drum_target_speed = min (initControl.front_drum_target_speed + drum_speed_increase) max_drum_speed ∧
    (parse_events allKeys initControl).1.front_arm_target_angle = min (initControl.front_arm_target_angle + arm_angle_increase) max_arm_angle ∧
    (parse_events allKeys initControl).1.back_arm_target_angle = min (initControl.back_arm_target_angle + arm_angle_increase) max_arm_angle ∧
    (parse_events allKeys initControl).1.back_drum_target_speed = min (initControl.back_drum_target_speed + drum_speed_increase) max_drum_speed :=
  ⟨(tie_break_first_branch allKeys initControl).1 rfl rfl,
   (tie_break_first_branch allKeys initControl).2.1 rfl rfl,
   (tie_break_first_branch allKeys initControl).2.2.1 rfl rfl,
   (tie_break_first_branch allKeys initControl).2.2.2.1 rfl rfl,
   (tie_break_first_branch allKeys initControl).2.2.2.2.1 rfl rfl,
   (tie_break_first_branch allKeys initControl).2.2.2.2.2 rfl rfl⟩

lemma rampFrontDrum_snd (k : Keys) (st : KeyboardControl) :
    (rampFrontDrum k st).2 =
      if k.k_f || k.k_v then
        [Command.set_front_drums_target_speed (rampFrontDrum k st).1.front_drum_target_speed]
      else [] := by
  cases hf : k.k_f <;> cases hv : k.k_v <;> simp [rampFrontDrum, hf, hv]

lemma rampFrontArm_snd (k : Keys) (st : KeyboardControl) :
    (rampFrontArm k st).2 =
      if k.k_g || k.k_b then
        [Command.set_front_arm_angle (rampFrontArm k st).1.front_arm_target_angle]
      else [] := by
  cases hg : k.k_g <;> cases hb : k.k_b <;> simp [rampFrontArm, hg, hb]

lemma rampBackArm_snd (k : Keys) (st : KeyboardControl) :
    (rampBackArm k st).2 =
      if k.k_h || k.k_n then
        [Command.set_back_arm_angle (rampBackArm k st).1.back_arm_target_angle]
      else [] := by
  cases hh : k.k_h <;> cases hn : k.k_n <;> simp [rampBackArm, hh, hn]

lemma rampBackDrum_snd (k : Keys) (st : KeyboardControl) :
    (rampBackDrum k st).2 =
      if k.k_j || k.k_m then
        [Command.set_back_drums_target_speed (rampBackDrum k st).1.back_drum_target_speed]
      else [] := by
  cases hj : k.k_j <;> cases hm : k.k_m <;> simp [rampBackDrum, hj, hm]

lemma parse_events_snd_eq (k : Keys) (st : KeyboardControl) :
    (parse_events k st).2 =
      Command.apply_velocity_control (rampAngular k (rampLinear k st)).linear_target_speed
          (rampAngular k (rampLinear k st)).angular_target_speed ::
        ((rampFrontDrum k (rampAngular k (rampLinear k st))).2 ++
          (rampFrontArm k (rampFrontDrum k (rampAngular k (rampLinear k st))).1).2 ++
          (rampBackArm k (rampFrontArm k (rampFrontDrum k (rampAngular k (rampLinear k st))).1).1).2 ++
          (rampBackDrum k (rampBackArm k (rampFrontArm k (rampFrontDrum k (rampAngular k (rampLinear k st))).1).1).1).2) :=
  rfl

lemma parse_events_fst_linear (k : Keys) (st : KeyboardControl) :
    (parse_events k st).1.linear_target_speed =
      (rampAngular k (rampLinear k st)).linear_target_speed := by
  show (rampBackDrum k (rampBackArm k (rampFrontArm k (rampFrontDrum k
      (rampAngular k (rampLinear k st))).1).1).1).1.linear_target_speed = _
  rw [(rampBackDrum_others _ _).1, (rampBackArm_others _ _).1, (rampFrontArm_others _ _).1,
    (rampFrontDrum_others _ _).1]

lemma parse_events_fst_angular (k : Keys) (st : KeyboardControl) :
    (parse_events k st).1.angular_target_speed =
      (rampAngular k (rampLinear k st)).angular_target_speed := by
  show (rampBackDrum k (rampBackArm k (rampFrontArm k (rampFrontDrum k
      (rampAngular k (rampLinear k st))).1).1).1).1.angular_target_speed = _
  rw [(rampBackDrum_others _ _).2.1, (rampBackArm_others _ _).2.1, (rampFrontArm_others _ _).2.1,
    (rampFrontDrum_others _ _).2.1]

lemma parse_events_fst_front_drum (k : Keys) (st : KeyboardControl) :
    (parse_events k st).1.front_drum_target_speed =
      (rampFrontDrum k (rampAngular k (rampLinear k st))).1.front_drum_target_speed := by
  show (rampBackDrum k (rampBackArm k (rampFrontArm k (rampFrontDrum k
      (rampAngular k (rampLinear k st))).1).1).1).1.front_drum_target_speed = _
  rw [(rampBackDrum_others _ _).2.2.1, (rampBackArm_others _ _).2.2.1, (rampFrontArm_others _ _).2.2.1]

lemma parse_events_fst_front_arm (k : Keys) (st : KeyboardControl) :
    (parse_events k st).1.front_arm_target_angle =
      (rampFrontArm k (rampFrontDrum k (rampAngular k (rampLinear k st))).1).1.front_arm_target_angle := by
  show (rampBackDrum k (rampBackArm k (rampFrontArm k (rampFrontDrum k
      (rampAngular k (rampLinear k st))).1).1).1).1.front_arm_target_angle = _
  rw [(rampBackDrum_others _ _).2.2.2.1, (rampBackArm_others _ _).2.2.2.1]

lemma parse_events_fst_back_arm (k : Keys) (st : KeyboardControl) :
    (parse_events k st).1.back_arm_target_angle =
      (rampBackArm k (rampFrontArm k (rampFrontDrum k (rampAngular k (rampLinear k st))).1).1).1.back_arm_target_angle := by
  show (rampBackDrum k (rampBackArm k (rampFrontArm k (rampFrontDrum k
      (rampAngular k (rampLinear k st))).1).1).1).1.back_arm_target_angle = _
  rw [(rampBackDrum_others _ _).2.2.2.2]

lemma parse_events_fst_back_drum (k : Keys) (st : KeyboardControl) :
    (parse_events k st).1.back_drum_target_speed =
      (rampBackDrum k (rampBackArm k (rampFrontArm k (rampFrontDrum k
        (rampAngular k (rampLinear k st))).1).1).1).1.back_drum_target_speed :=
  rfl

/-- Claim C3 counterexample: on a frame with no key held, starting from the
initial state, the only command emitted is the velocity command for linear and
angular speed; no drum-speed or arm-angle command is sent, so not all six
values are forwarded every frame. -/
theorem no_keys_commands_cex :
    (parse_events noKeys initControl).2 = [Command.apply_velocity_control 0 0] ∧
    ∀ q : ℚ, Command.set_front_drums_target_speed q ∉ (parse_events noKeys initControl).2 := by
  have h : (parse_events noKeys initControl).2 = [Command.apply_velocity_control 0 0] := by
    norm_num [parse_events, rampLinear, rampAngular, rampFrontDrum, rampFrontArm, rampBackArm,
      rampBackDrum, noKeys, initControl, linear_speed_increase, angular_speed_increase,
      max_linear_speed, max_angular_speed, max_def, min_def]
  refine ⟨h, fun q => ?_⟩
  rw [h]
  simp

/-- Claim C3 amended: every frame emits exactly one velocity command carrying
the updated linear and angular speed, regardless of keys; a drum-speed or
arm-angle command, carrying that channel's updated value, is emitted exactly on
the frames where one of that channel's two keys is held. -/
theorem commands_emitted_per_frame (k : Keys) (st : KeyboardControl) :
    (parse_events k st).2 =
      Command.apply_velocity_control (parse_events k st).1.linear_target_speed
          (parse_events k st).1.angular_target_speed ::
        ((if k.k_f || k.k_v then
            [Command.set_front_drums_target_speed (parse_events k st).1.front_drum_target_speed]
          else []) ++
          (if k.k_g || k.k_b then
            [Command.set_front_arm_angle (parse_events k st).1.front_arm_target_angle]
          else []) ++
          (if k.k_h || k.k_n then
            [Command.set_back_arm_angle (parse_events k st).1.back_arm_target_angle]
          else []) ++
          (if k.k_j || k.k_m then
            [Command.set_back_drums_target_speed (parse_events k st).1.back_drum_target_speed]
          else [])) := by
  rw [parse_events_snd_eq, parse_events_fst_linear, parse_events_fst_angular,
    parse_events_fst_front_drum, parse_events_fst_front_arm, parse_events_fst_back_arm,
    parse_events_fst_back_drum, rampFrontDrum_snd, rampFrontArm_snd, rampBackArm_snd,
    rampBackDrum_snd]

lemma decay_abs {x d : ℚ} (hd : 0 ≤ d) :
    0 ≤ max (x - d) 0 ∧ |max (x - d) 0| ≤ |x| := by
  refine ⟨le_max_right _ _, ?_⟩
  rw [abs_of_nonneg (le_max_right _ _)]
  rcases le_or_lt 0 x with h | h
  · rw [abs_of_nonneg h]
    exact max_le (by linarith) h
  · rw [abs_of_neg h]
    exact max_le (by linarith) (by linarith)

/-- Claim C4: on any frame where neither directional key of a decaying channel
is held (whatever the other channels' keys do), that channel is set to
`max(value - 2*step, 0)`; the new value is never past the resting value 0 and
its distance to 0 never grows, so over consecutive such frames the value moves
monotonically toward 0 without overshoot or sign reversal. -/
theorem decay_frame_spec (k : Keys) (st : KeyboardControl) :
    (k.k_up = false → k.k_w = false → k.k_down = false → k.k_s = false →
      (parse_events k st).1.linear_target_speed = max (st.linear_target_speed - 2 * linear_speed_increase) 0 ∧
      0 ≤ (parse_events k st).1.linear_target_speed ∧
      |(parse_events k st).1.linear_target_speed| ≤ |st.linear_target_speed|) ∧
    (k.k_left = false → k.k_a = false → k.k_right = false → k.k_d = false →
      (parse_events k st).1.angular_target_speed = max (st.angular_target_speed - 2 * angular_speed_increase) 0 ∧
      0 ≤ (parse_events k st).1.angular_target_speed ∧
      |(parse_events k st).1.angular_target_speed| ≤ |st.angular_target_speed|) := by
  constructor
  · intro h1 h2 h3 h4
    have hl : (parse_events k st).1.linear_target_speed =
        max (st.linear_target_speed - 2 * linear_speed_increase) 0 := by
      rw [parse_events_linear_eq]
      simp [h1, h2, h3, h4]
    have habsl := decay_abs (x := st.linear_target_speed)
      (d := 2 * linear_speed_increase) (by norm_num [linear_speed_increase])
    rw [hl]
    exact ⟨rfl, habsl.1, habsl.2⟩
  · intro h5 h6 h7 h8
    have ha : (parse_events k st).1.angular_target_speed =
        max (st.angular_target_speed - 2 * angular_speed_increase) 0 := by
      rw [parse_events_angular_eq]
      simp [h5, h6, h7, h8]
    have habsa := decay_abs (x := st.angular_target_speed)
      (d := 2 * angular_speed_increase) (by norm_num [angular_speed_increase])
    rw [ha]
    exact ⟨rfl, habsa.1, habsa.2⟩

/-- Witness for the decay-frame theorem: on a frame holding only the LEFT
steering key the linear channel still decays (its own keys are un-held), and
on a frame holding only the UP key the angular channel still decays. -/
theorem decay_frame_spec_witness :
    ((parse_events keysLeftOnly initControl).1.linear_target_speed =
      max (initControl.linear_target_speed - 2 * linear_speed_increase) 0) ∧
    ((parse_events keysUpOnly initControl).1.angular_target_speed =
      max (initControl.angular_target_speed - 2 * angular_speed_increase) 0) :=
  ⟨((decay_frame_spec keysLeftOnly initControl).1 rfl rfl rfl rfl).1,
   ((decay_frame_spec keysUpOnly initControl).2 rfl rfl rfl rfl).1⟩

/-- Claim C10: a decaying channel holding a strictly negative value is clamped
to exactly the resting value 0 by a single frame with no directional key held,
because `max(value - 2*step, 0)` returns 0 for any negative value. -/
theorem negative_decay_single_frame (k : Keys) (st : KeyboardControl)
    (h1 : k.k_up = false) (h2 : k.k_w = false) (h3 : k.k_down = false) (h4 : k.k_s = false)
    (h5 : k.k_left = false) (h6 : k.k_a = false) (h7 : k.k_right = false) (h8 : k.k_d = false) :
    (st.linear_target_speed < 0 → (parse_events k st).1.linear_target_speed = 0) ∧
    (st.angular_target_speed < 0 → (parse_events k st).1.angular_target_speed = 0) := by
  constructor
  · intro hneg
    rw [parse_events_linear_eq]
    simp only [h1, h2, h3, h4, Bool.or_self, Bool.false_eq_true, if_false]
    rw [max_eq_right]
    have : (0:ℚ) ≤ 2 * linear_speed_increase := by norm_num [linear_speed_increase]
    linarith
  · intro hneg
    rw [parse_events_angular_eq]
    simp only [h5, h6, h7, h8, Bool.or_self, Bool.false_eq_true, if_false]
    rw [max_eq_right]
    have : (0:ℚ) ≤ 2 * angular_speed_increase := by norm_num [angular_speed_increase]
    linarith

/-- Witness for the negative-decay theorem at a state with both decaying
channels negative. -/
theorem negative_decay_single_frame_witness :
    (parse_events noKeys { initControl with linear_target_speed := -1/10, angular_target_speed := -1/5 }).1.linear_target_speed = 0 ∧
    (parse_events noKeys { initControl with linear_target_speed := -1/10, angular_target_speed := -1/5 }).1.angular_target_speed = 0 :=
  ⟨(negative_decay_single_frame noKeys _ rfl rfl rfl rfl rfl rfl rfl rfl).1 (by norm_num),
   (negative_decay_single_frame noKeys _ rfl rfl rfl rfl rfl rfl rfl rfl).2 (by norm_num)⟩

lemma run_frames_fix (proj : KeyboardControl → ℚ) (P : Keys → Prop)
    (hstep : ∀ k st, P k → proj (parse_events k st).1 = proj st) :
    ∀ (ks : List Keys) (st : KeyboardControl), (∀ k ∈ ks, P k) → proj (run_frames ks st) = proj st := by
  intro ks
  induction ks with
  | nil => intro st _; rfl
  | cons k rest ih =>
    intro st h
    show proj (run_frames rest (parse_events k st).1) = proj st
    rw [ih (parse_events k st).1 (fun x hx => h x (List.mem_cons_of_mem k hx)),
      hstep k st (h k (List.mem_cons_self k rest))]

/-- Claim C5: a hold-and-ramp channel (front/back drum speed, front/back arm
angle) keeps its value unchanged over any run of frames in which neither of
its two keys is held, and each channel's if/elif block leaves every other
field of the state untouched. -/
theorem hold_and_ramp_persist (ks : List Keys) (st : KeyboardControl) :
    ((∀ k ∈ ks, k.k_f = false ∧ k.k_v = false) →
      (run_frames ks st).front_drum_target_speed = st.front_drum_target_speed) ∧
    ((∀ k ∈ ks, k.k_g = false ∧ k.k_b = false) →
      (run_frames ks st).front_arm_target_angle = st.front_arm_target_angle) ∧
    ((∀ k ∈ ks, k.k_h = false ∧ k.k_n = false) →
      (run_frames ks st).back_arm_target_angle = st.back_arm_target_angle) ∧
    ((∀ k ∈ ks, k.k_j = false ∧ k.k_m = false) →
      (run_frames ks st).back_drum_target_speed = st.back_drum_target_speed) ∧
    (∀ (k2 : Keys) (st2 : KeyboardControl),
      (rampFrontDrum k2 st2).1.linear_target_speed = st2.linear_target_speed ∧
      (rampFrontDrum k2 st2).1.angular_target_speed = st2.angular_target_speed ∧
      (rampFrontDrum k2 st2).1.front_arm_target_angle = st2.front_arm_target_angle ∧
      (rampFrontDrum k2 st2).1.back_arm_target_angle = st2.back_arm_target_angle ∧
      (rampFrontDrum k2 st2).1.back_drum_target_speed = st2.back_drum_target_speed) ∧
    (∀ (k2 : Keys) (st2 : KeyboardControl),
      (rampFrontArm k2 st2).1.linear_target_speed = st2.linear_target_speed ∧
      (rampFrontArm k2 st2).1.angular_target_speed = st2.angular_target_speed ∧
      (rampFrontArm k2 st2).1.front_drum_target_speed = st2.front_drum_target_speed ∧
      (rampFrontArm k2 st2).1.back_arm_target_angle = st2.back_arm_target_angle ∧
      (rampFrontArm k2 st2).1.back_drum_target_speed = st2.back_drum_target_speed) ∧
    (∀ (k2 : Keys) (st2 : KeyboardControl),
      (rampBackArm k2 st2).1.linear_target_speed = st2.linear_target_speed ∧
      (rampBackArm k2 st2).1.angular_target_speed = st2.angular_target_speed ∧
      (rampBackArm k2 st2).1.front_drum_target_speed = st2.front_drum_target_speed ∧
      (rampBackArm k2 st2).1.front_arm_target_angle = st2.front_arm_target_angle ∧
      (rampBackArm k2 st2).1.back_drum_target_speed = st2.back_drum_target_speed) ∧
    (∀ (k2 : Keys) (st2 : KeyboardControl),
      (rampBackDrum k2 st2).1.linear_target_speed = st2.linear_target_speed ∧
      (rampBackDrum k2 st2).1.angular_target_speed = st2.angular_target_speed ∧
      (rampBackDrum k2 st2).1.front_drum_target_speed = st2.front_drum_target_speed ∧
      (rampBackDrum k2 st2).1.front_arm_target_angle = st2.front_arm_target_angle ∧
      (rampBackDrum k2 st2).1.back_arm_target_angle = st2.back_arm_target_angle) := by
  refine ⟨?_, ?_, ?_, ?_, rampFrontDrum_others, rampFrontArm_others, rampBackArm_others,
    rampBackDrum_others⟩
  · intro h
    refine run_frames_fix (fun s2 => s2.front_drum_target_speed)
      (fun k => k.k_f = false ∧ k.k_v = false) (fun k s2 hk => ?_) ks st h
    show (parse_events k s2).1.front_drum_target_speed = s2.front_drum_target_speed
    rw [parse_events_front_drum_eq]
    simp [hk.1, hk.2]
  · intro h
    refine run_frames_fix (fun s2 => s2.front_arm_target_angle)
      (fun k => k.k_g = false ∧ k.k_b = false) (fun k s2 hk => ?_) ks st h
    show (parse_events k s2).1.front_arm_target_angle = s2.front_arm_target_angle
    rw [parse_events_front_arm_eq]
    simp [hk.1, hk.2]
  · intro h
    refine run_frames_fix (fun s2 => s2.back_arm_target_angle)
      (fun k => k.k_h = false ∧ k.k_n = false) (fun k s2 hk => ?_) ks st h
    show (parse_events k s2).1.back_arm_target_angle = s2.back_arm_target_angle
    rw [parse_events_back_arm_eq]
    simp [hk.1, hk.2]
  · intro h
    refine run_frames_fix (fun s2 => s2.back_drum_target_speed)
      (fun k => k.k_j = false ∧ k.k_m = false) (fun k s2 hk => ?_) ks st h
    show (parse_events k s2).1.back_drum_target_speed = s2.back_drum_target_speed
    rw [parse_events_back_drum_eq]
    simp [hk.1, hk.2]

/-- Witness for the hold-and-ramp persistence theorem: over two frames holding
only the UP key, all four drum/arm channels keep their initial values. -/
theorem hold_and_ramp_persist_witness :
    (run_frames [keysUpOnly, keysUpOnly] initControl).front_drum_target_speed = initControl.front_drum_target_speed ∧
    (run_frames [keysUpOnly, keysUpOnly] initControl).front_arm_target_angle = initControl.front_arm_target_angle ∧
    (run_frames [keysUpOnly, keysUpOnly] initControl).back_arm_target_angle = initControl.back_arm_target_angle ∧
    (run_frames [keysUpOnly, keysUpOnly] initControl).back_drum_target_speed = initControl.back_drum_target_speed := by
  have h : ∀ k ∈ [keysUpOnly, keysUpOnly],
      k.k_f = false ∧ k.k_v = false ∧ k.k_g = false ∧ k.k_b = false ∧
      k.k_h = false ∧ k.k_n = false ∧ k.k_j = false ∧ k.k_m = false := by
    intro k hk
    rcases List.mem_cons.mp hk with h1 | h1
    · subst h1; exact ⟨rfl, rfl, rfl, rfl, rfl, rfl, rfl, rfl⟩
    · rcases List.mem_cons.mp h1 with h2 | h2
      · subst h2; exact ⟨rfl, rfl, rfl, rfl, rfl, rfl, rfl, rfl⟩
      · exact absurd h2 (List.not_mem_nil k)
  exact ⟨(hold_and_ramp_persist _ _).1 (fun k hk => ⟨(h k hk).1, (h k hk).2.1⟩),
    (hold_and_ramp_persist _ _).2.1 (fun k hk => ⟨(h k hk).2.2.1, (h k hk).2.2.2.1⟩),
    (hold_and_ramp_persist _ _).2.2.1 (fun k hk => ⟨(h k hk).2.2.2.2.1, (h k hk).2.2.2.2.2.1⟩),
    (hold_and_ramp_persist _ _).2.2.2.1 (fun k hk => ⟨(h k hk).2.2.2.2.2.2.1, (h k hk).2.2.2.2.2.2.2⟩)⟩

lemma run_replicate_min (keys : Keys) (proj : KeyboardControl → ℚ) (s M : ℚ) (hs : 0 ≤ s)
    (hstep : ∀ st, proj (parse_events keys st).1 = min (proj st + s) M) :
    ∀ (N : ℕ) (st : KeyboardControl), proj st ≤ M →
      proj (run_frames (List.replicate N keys) st) = min (proj st + N * s) M := by
  intro N
  induction N with
  | zero =>
    intro st h
    show proj st = min (proj st + (0:ℕ) * s) M
    rw [Nat.cast_zero, zero_mul, add_zero, min_eq_left h]
  | succ n ih =>
    intro st h
    rw [List.replicate_succ]
    show proj (run_frames (List.replicate n keys) (parse_events keys st).1) = _
    rw [ih (parse_events keys st).1 (by rw [hstep]; exact min_le_right _ _), hstep]
    rcases le_or_lt (proj st + s) M with hle | hlt
    · rw [min_eq_left hle]
      congr 1
      push_cast
      ring
    · have hns : 0 ≤ (n : ℚ) * s := mul_nonneg (Nat.cast_nonneg n) hs
      rw [min_eq_right hlt.le, min_eq_right (by linarith : M ≤ M + (n:ℚ) * s),
        min_eq_right (by push_cast; linarith : M ≤ proj st + ((n:ℕ)+1 : ℕ) * s)]

lemma min_reach (s M c : ℚ) (hs : 0 < s) (N : ℕ)
    (hN : (⌈(M - c) / s⌉).toNat ≤ N) : min (c + N * s) M = M := by
  have h1 : ⌈(M - c) / s⌉ ≤ (N : ℤ) := Int.toNat_le.mp hN
  have h2 : (M - c) / s ≤ (N : ℚ) := by
    calc (M - c) / s ≤ (⌈(M - c) / s⌉ : ℚ) := Int.le_ceil _
    _ ≤ (N : ℚ) := by exact_mod_cast h1
  have h3 : M - c ≤ N * s := by rwa [div_le_iff₀ hs] at h2
  exact min_eq_right (by linarith)

lemma run_replicate_decay (keys : Keys) (proj : KeyboardControl → ℚ) (d : ℚ) (hd : 0 ≤ d)
    (hstep : ∀ st, proj (parse_events keys st).1 = max (proj st - d) 0) :
    ∀ (N : ℕ) (st : KeyboardControl), 0 ≤ proj st →
      proj (run_frames (List.replicate N keys) st) = max (proj st - N * d) 0 := by
  intro N
  induction N with
  | zero =>
    intro st h
    show proj st = max (proj st - (0:ℕ) * d) 0
    rw [Nat.cast_zero, zero_mul, sub_zero, max_eq_left h]
  | succ n ih =>
    intro st h
    rw [List.replicate_succ]
    show proj (run_frames (List.replicate n keys) (parse_events keys st).1) = _
    rw [ih (parse_events keys st).1 (by rw [hstep]; exact le_max_right _ _), hstep]
    rcases le_or_lt d (proj st) with hle | hlt
    · rw [max_eq_left (by linarith : (0:ℚ) ≤ proj st - d)]
      congr 1
      push_cast
      ring
    · have hnd : 0 ≤ (n : ℚ) * d := mul_nonneg (Nat.cast_nonneg n) hd
      rw [max_eq_right (by linarith : proj st - d ≤ 0),
        max_eq_right (by linarith : (0:ℚ) - (n:ℚ) * d ≤ 0),
        max_eq_right (by push_cast; linarith : proj st - ((n:ℕ)+1 : ℕ) * d ≤ 0)]

lemma step_up_linear (st : KeyboardControl) :
    (parse_events keysUpOnly st).1.linear_target_speed =
      min (st.linear_target_speed + linear_speed_increase) max_linear_speed := by
  rw [parse_events_linear_eq]
  simp [keysUpOnly]

lemma step_right_angular (st : KeyboardControl) :
    (parse_events keysRightOnly st).1.angular_target_speed =
      min (st.angular_target_speed + angular_speed_increase) max_angular_speed := by
  rw [parse_events_angular_eq]
  simp [keysRightOnly]

lemma step_f_front_drum (st : KeyboardControl) :
    (parse_events keysFOnly st).1.front_drum_target_speed =
      min (st.front_drum_target_speed + drum_speed_increase) max_drum_speed := by
  rw [parse_events_front_drum_eq]
  simp [keysFOnly]

lemma step_g_front_arm (st : KeyboardControl) :
    (parse_events keysGOnly st).1.front_arm_target_angle =
      min (st.front_arm_target_angle + arm_angle_increase) max_arm_angle := by
  rw [parse_events_front_arm_eq]
  simp [keysGOnly]

lemma step_h_back_arm (st : KeyboardControl) :
    (parse_events keysHOnly st).1.back_arm_target_angle =
      min (st.back_arm_target_angle + arm_angle_increase) max_arm_angle := by
  rw [parse_events_back_arm_eq]
  simp [keysHOnly]

lemma step_j_back_drum (st : KeyboardControl) :
    (parse_events keysJOnly st).1.back_drum_target_speed =
      min (st.back_drum_target_speed + drum_speed_increase) max_drum_speed := by
  rw [parse_events_back_drum_eq]
  simp [keysJOnly]

lemma step_nokeys_linear (st : KeyboardControl) :
    (parse_events noKeys st).1.linear_target_speed =
      max (st.linear_target_speed - 2 * linear_speed_increase) 0 := by
  rw [parse_events_linear_eq]
  simp [noKeys]

/-- Claim C6: for each channel, starting from a value at most the channel's
`max_value`, holding the channel's positive key for `N` consecutive frames
yields `min(value + N*increase_step, max_value)`; once `N` reaches
`ceil((max_value - value)/increase_step)`, the value is exactly `max_value`
and stays there for all further positive-key frames. -/
theorem hold_positive_ramp (N : ℕ) (st : KeyboardControl) :
    (st.linear_target_speed ≤ max_linear_speed →
      (run_frames (List.replicate N keysUpOnly) st).linear_target_speed =
        min (st.linear_target_speed + N * linear_speed_increase) max_linear_speed ∧
      ((⌈(max_linear_speed - st.linear_target_speed) / linear_speed_increase⌉.toNat ≤ N →
        (run_frames (List.replicate N keysUpOnly) st).linear_target_speed = max_linear_speed))) ∧
    (st.angular_target_speed ≤ max_angular_speed →
      (run_frames (List.replicate N keysRightOnly) st).angular_target_speed =
        min (st.angular_target_speed + N * angular_speed_increase) max_angular_speed ∧
      ((⌈(max_angular_speed - st.angular_target_speed) / angular_speed_increase⌉.toNat ≤ N →
        (run_frames (List.replicate N keysRightOnly) st).angular_target_speed = max_angular_speed))) ∧
    (st.front_drum_target_speed ≤ max_drum_speed →
      (run_frames (List.replicate N keysFOnly) st).front_drum_target_speed =
        min (st.front_drum_target_speed + N * drum_speed_increase) max_drum_speed ∧
      ((⌈(max_drum_speed - st.front_drum_target_speed) / drum_speed_increase⌉.toNat ≤ N →
        (run_frames (List.replicate N keysFOnly) st).front_drum_target_speed = max_drum_speed))) ∧
    (st.front_arm_target_angle ≤ max_arm_angle →
      (run_frames (List.replicate N keysGOnly) st).front_arm_target_angle =
        min (st.front_arm_target_angle + N * arm_angle_increase) max_arm_angle ∧
      ((⌈(max_arm_angle - st.front_arm_target_angle) / arm_angle_increase⌉.toNat ≤ N →
        (run_frames (List.replicate N keysGOnly) st).front_arm_target_angle = max_arm_angle))) ∧
    (st.back_arm_target_angle ≤ max_arm_angle →
      (run_frames (List.replicate N keysHOnly) st).back_arm_target_angle =
        min (st.back_arm_target_angle + N * arm_angle_increase) max_arm_angle ∧
      ((⌈(max_arm_angle - st.back_arm_target_angle) / arm_angle_increase⌉.toNat ≤ N →
        (run_frames (List.replicate N keysHOnly) st).back_arm_target_angle = max_arm_angle))) ∧
    (st.back_drum_target_speed ≤ max_drum_speed →
      (run_frames (List.replicate N keysJOnly) st).back_drum_target_speed =
        min (st.back_drum_target_speed + N * drum_speed_increase) max_drum_speed ∧
      ((⌈(max_drum_speed - st.back_drum_target_speed) / drum_speed_increase⌉.toNat ≤ N →
        (run_frames (List.replicate N keysJOnly) st).back_drum_target_speed = max_drum_speed))) := by
  have hl : (0:ℚ) < linear_speed_increase := by norm_num [linear_speed_increase]
  have ha : (0:ℚ) < angular_speed_increase := by norm_num [angular_speed_increase]
  have hd : (0:ℚ) < drum_speed_increase := by norm_num [drum_speed_increase]
  have hr : (0:ℚ) < arm_angle_increase := by norm_num [arm_angle_increase]
  refine ⟨fun h => ?_, fun h => ?_, fun h => ?_, fun h => ?_, fun h => ?_, fun h => ?_⟩
  · have hform : (run_frames (List.replicate N keysUpOnly) st).linear_target_speed =
        min (st.linear_target_speed + N * linear_speed_increase) max_linear_speed :=
      run_replicate_min keysUpOnly (fun s2 => s2.linear_target_speed)
        linear_speed_increase max_linear_speed hl.le step_up_linear N st h
    exact ⟨hform, fun hN => by rw [hform]; exact min_reach _ _ _ hl N hN⟩
  · have hform : (run_frames (List.replicate N keysRightOnly) st).angular_target_speed =
        min (st.angular_target_speed + N * angular_speed_increase) max_angular_speed :=
      run_replicate_min keysRightOnly (fun s2 => s2.angular_target_speed)
        angular_speed_increase max_angular_speed ha.le step_right_angular N st h
    exact ⟨hform, fun hN => by rw [hform]; exact min_reach _ _ _ ha N hN⟩
  · have hform : (run_frames (List.replicate N keysFOnly) st).front_drum_target_speed =
        min (st.front_drum_target_speed + N * drum_speed_increase) max_drum_speed :=
      run_replicate_min keysFOnly (fun s2 => s2.front_drum_target_speed)
        drum_speed_increase max_drum_speed hd.le step_f_front_drum N st h
    exact ⟨hform, fun hN => by rw [hform]; exact min_reach _ _ _ hd N hN⟩
  · have hform : (run_frames (List.replicate N keysGOnly) st).front_arm_target_angle =
        min (st.front_arm_target_angle + N * arm_angle_increase) max_arm_angle :=
      run_replicate_min keysGOnly (fun s2 => s2.front_arm_target_angle)
        arm_angle_increase max_arm_angle hr.le step_g_front_arm N st h
    exact ⟨hform, fun hN => by rw [hform]; exact min_reach _ _ _ hr N hN⟩
  · have hform : (run_frames (List.replicate N keysHOnly) st).back_arm_target_angle =
        min (st.back_arm_target_angle + N * arm_angle_increase) max_arm_angle :=
      run_replicate_min keysHOnly (fun s2 => s2.back_arm_target_angle)
        arm_angle_increase max_arm_angle hr.le step_h_back_arm N st h
    exact ⟨hform, fun hN => by rw [hform]; exact min_reach _ _ _ hr N hN⟩
  · have hform : (run_frames (List.replicate N keysJOnly) st).back_drum_target_speed =
        min (st.back_drum_target_speed + N * drum_speed_increase) max_drum_speed :=
      run_replicate_min keysJOnly (fun s2 => s2.back_drum_target_speed)
        drum_speed_increase max_drum_speed hd.le step_j_back_drum N st h
    exact ⟨hform, fun hN => by rw [hform]; exact min_reach _ _ _ hd N hN⟩

/-- Witness for the positive-key ramping theorem: three UP frames from the
initial state give linear speed `min(0 + 3*0.01, 0.5)`. -/
theorem hold_positive_ramp_witness :
    (run_frames (List.replicate 3 keysUpOnly) initControl).linear_target_speed =
      min (initControl.linear_target_speed + 3 * linear_speed_increase) max_linear_speed :=
  ((hold_positive_ramp 3 initControl).1
    (by norm_num [initControl, max_linear_speed])).1

/-- Claim C7: from the initial state, holding the UP key for 60 frames drives
linear speed to exactly 0.5, with the clamp first hit at frame 50 (frame 49
gives 0.49) and the value staying 0.5 through frames 50-60; releasing all keys
for 10 further frames then lowers it by 0.02 per frame down to exactly 0.3. -/
theorem linear_speed_scenario :
    (run_frames (List.replicate 60 keysUpOnly) initControl).linear_target_speed = 1/2 ∧
    (run_frames (List.replicate 49 keysUpOnly) initControl).linear_target_speed = 49/100 ∧
    (∀ n : ℕ, 50 ≤ n → n ≤ 60 →
      (run_frames (List.replicate n keysUpOnly) initControl).linear_target_speed = 1/2) ∧
    (∀ n : ℕ, n ≤ 10 →
      (run_frames (List.replicate n noKeys)
        (run_frames (List.replicate 60 keysUpOnly) initControl)).linear_target_speed =
          1/2 - n * (2 * linear_speed_increase)) ∧
    (run_frames (List.replicate 10 noKeys)
      (run_frames (List.replicate 60 keysUpOnly) initControl)).linear_target_speed = 3/10 := by
  have hup : ∀ n : ℕ, (run_frames (List.replicate n keysUpOnly) initControl).linear_target_speed =
      min (initControl.linear_target_speed + n * linear_speed_increase) max_linear_speed :=
    fun n => run_replicate_min keysUpOnly (fun s2 => s2.linear_target_speed)
      linear_speed_increase max_linear_speed (by norm_num [linear_speed_increase])
      step_up_linear n initControl (by norm_num [initControl, max_linear_speed])
  have hstay : ∀ n : ℕ, 50 ≤ n →
      (run_frames (List.replicate n keysUpOnly) initControl).linear_target_speed = 1/2 := by
    intro n hn
    rw [hup n]
    have hn50 : (50:ℚ) ≤ (n:ℚ) := by exact_mod_cast hn
    rw [min_eq_right (by norm_num [initControl, linear_speed_increase, max_linear_speed]; linarith)]
    norm_num [max_linear_speed]
  have h60 : (run_frames (List.replicate 60 keysUpOnly) initControl).linear_target_speed = 1/2 :=
    hstay 60 (by norm_num)
  have hdecay : ∀ n : ℕ, (0:ℚ) ≤ (run_frames (List.replicate 60 keysUpOnly) initControl).linear_target_speed →
      (run_frames (List.replicate n noKeys)
        (run_frames (List.replicate 60 keysUpOnly) initControl)).linear_target_speed =
      max ((run_frames (List.replicate 60 keysUpOnly) initControl).linear_target_speed -
        n * (2 * linear_speed_increase)) 0 :=
    fun n h => run_replicate_decay noKeys (fun s2 => s2.linear_target_speed)
      (2 * linear_speed_increase) (by norm_num [linear_speed_increase])
      step_nokeys_linear n (run_frames (List.replicate 60 keysUpOnly) initControl) h
  refine ⟨h60, ?_, fun n hn _ => hstay n hn, fun n hn => ?_, ?_⟩
  · rw [hup 49]
    norm_num [initControl, linear_speed_increase, max_linear_speed, min_def]
  · rw [hdecay n (by rw [h60]; norm_num), h60]
    have hn10 : (n:ℚ) ≤ 10 := by exact_mod_cast hn
    rw [max_eq_left (by norm_num [linear_speed_increase]; linarith)]
  · rw [hdecay 10 (by rw [h60]; norm_num), h60]
    norm_num [linear_speed_increase]

/-- Witness for the linear-speed scenario theorem at frame 55 of the UP phase. -/
theorem linear_speed_scenario_witness :
    (run_frames (List.replicate 55 keysUpOnly) initControl).linear_target_speed = 1/2 :=
  linear_speed_scenario.2.2.1 55 (by norm_num) (by norm_num)

lemma toggle_light_at (shift : Bool) (sensor : SensorPosition) (lights : SensorPosition → ℚ) :
    toggle_light shift sensor lights sensor =
      if shift then max (min (lights sensor - lights_increase) 100) 0
      else max (min (lights sensor + lights_increase) 100) 0 := by
  simp [toggle_light]

lemma toggle_light_other (shift : Bool) (sensor : SensorPosition) (lights : SensorPosition → ℚ)
    (p : SensorPosition) (hp : p ≠ sensor) :
    toggle_light shift sensor lights p = lights p := by
  simp [toggle_light, hp]

/-- Claim C8: one toggle event rewrites the toggled position's stored
percentage to the old value plus the step 10 (minus it when the shift modifier
is held), clamped to [0,100]; the result stays within [0,100], other positions
are untouched, and from 0 an unmodified toggle gives 10 while a following
shift-modified toggle gives 0 again. -/
theorem light_toggle_spec (shift : Bool) (sensor : SensorPosition)
    (lights : SensorPosition → ℚ)
    (h0 : 0 ≤ lights sensor) (h100 : lights sensor ≤ 100) :
    toggle_light shift sensor lights sensor =
      max (min (lights sensor + (if shift then -lights_increase else lights_increase)) 100) 0 ∧
    0 ≤ toggle_light shift sensor lights sensor ∧
    toggle_light shift sensor lights sensor ≤ 100 ∧
    (∀ p, p ≠ sensor → toggle_light shift sensor lights p = lights p) ∧
    toggle_light false sensor init_lights sensor = 10 ∧
    toggle_light true sensor (toggle_light false sensor init_lights) sensor = 0 := by
  have hform : toggle_light shift sensor lights sensor =
      max (min (lights sensor + (if shift then -lights_increase else lights_increase)) 100) 0 := by
    rw [toggle_light_at]
    cases shift <;> simp [sub_eq_add_neg]
  have h1 : toggle_light false sensor init_lights sensor = 10 := by
    rw [toggle_light_at]
    norm_num [init_lights, lights_increase, min_def, max_def]
  refine ⟨hform, ?_, ?_, toggle_light_other shift sensor lights, h1, ?_⟩
  · rw [hform]
    exact le_max_right _ _
  · rw [hform]
    exact max_le (le_trans (min_le_right _ _) (by norm_num)) (by norm_num)
  · rw [toggle_light_at, if_pos rfl, h1]
    norm_num [lights_increase, min_def, max_def]

/-- Witness for the light-toggle theorem at the Front position from the
all-zero initial lights map. -/
theorem light_toggle_spec_witness :
    toggle_light false SensorPosition.Front init_lights SensorPosition.Front =
      max (min (init_lights SensorPosition.Front +
        (if false then -lights_increase else lights_increase)) 100) 0 ∧
    toggle_light false SensorPosition.Front init_lights SensorPosition.Back =
      init_lights SensorPosition.Back :=
  ⟨(light_toggle_spec false SensorPosition.Front init_lights
      (by norm_num [init_lights]) (by norm_num [init_lights])).1,
   (light_toggle_spec false SensorPosition.Front init_lights
      (by norm_num [init_lights]) (by norm_num [init_lights])).2.2.2.1
      SensorPosition.Back (by simp)⟩

/-- Claim C9: every light percentage reachable from the all-zero initial map by
toggle events is one of 0, 10, 20, ..., 100: each value is 10 times a natural
number at most 10. -/
theorem light_levels_multiple_of_ten (evs : List (Bool × SensorPosition)) (p : SensorPosition) :
    ∃ k : ℕ, k ≤ 10 ∧ run_toggles evs init_lights p = 10 * k := by
  suffices h : ∀ lights : SensorPosition → ℚ,
      (∀ q, ∃ k : ℕ, k ≤ 10 ∧ lights q = 10 * k) →
      ∀ q, ∃ k : ℕ, k ≤ 10 ∧ run_toggles evs lights q = 10 * k by
    exact h init_lights (fun q => ⟨0, by norm_num, by norm_num [init_lights]⟩) p
  induction evs with
  | nil => exact fun lights h q => h q
  | cons ev rest ih =>
    rcases ev with ⟨shift, sensor⟩
    intro lights h q
    show ∃ k : ℕ, k ≤ 10 ∧ run_toggles rest (toggle_light shift sensor lights) q = 10 * (k:ℚ)
    apply ih
    intro r
    by_cases hr : r = sensor
    · subst hr
      obtain ⟨k, hk, hv⟩ := h r
      rw [toggle_light_at, hv]
      cases shift
      · rcases Nat.lt_or_ge k 10 with hlt | hge
        · refine ⟨k + 1, by omega, ?_⟩
          have hk9 : (k:ℚ) ≤ 9 := by exact_mod_cast (by omega : k ≤ 9)
          rw [if_neg (by simp), min_eq_left (by norm_num [lights_increase]; linarith),
            max_eq_left (by norm_num [lights_increase]; positivity)]
          norm_num [lights_increase]
          ring
        · have hk10 : k = 10 := le_antisymm hk hge
          subst hk10
          refine ⟨10, le_refl 10, ?_⟩
          norm_num [lights_increase, min_def, max_def]
      · rcases Nat.eq_zero_or_pos k with hz | hpos
        · subst hz
          refine ⟨0, by omega, ?_⟩
          norm_num [lights_increase, min_def, max_def]
        · refine ⟨k - 1, by omega, ?_⟩
          have hk1 : (1:ℚ) ≤ (k:ℚ) := by exact_mod_cast hpos
          have hk10 : (k:ℚ) ≤ 10 := by exact_mod_cast hk
          rw [if_pos rfl, min_eq_left (by norm_num [lights_increase]; linarith),
            max_eq_left (by norm_num [lights_increase]; linarith)]
          rw [Nat.cast_sub hpos]
          norm_num [lights_increase]
          ring
    · obtain ⟨k, hk, hv⟩ := h r
      exact ⟨k, hk, by rw [toggle_light_other shift sensor lights r hr]; exact hv⟩
